import Mathlib

/-!
Shallow embedding of the sensor sampling and filtering subsystem of
`sensor_script.py` (class `LiquidLevelSensor`).

Distances and pulse durations are modelled as rationals.  Python's
`round(x, 2)` is modelled by rounding `x * 100` to the nearest integer and
dividing by 100; the tie-breaking direction is immaterial to every statement
below, which only needs that both sides of each equation round identically,
that rounding is monotone and that it fixes integer multiples of 1/100.

The GPIO busy-wait loops of `_measure_distance` (lines 36-56) are I/O: the
embedding receives their outcome as a `PulseObservation` holding the computed
`pulse_duration = pulse_end - pulse_start` together with a flag recording
whether either wait loop broke on the 0.1 s deadline.  The rest of the code
never consults that flag; it is carried so that claims about timed-out
cycles can be stated.
-/

/-- Python `round(q, 2)`: `q` rounded to 2 decimal places. -/
def round2 (q : ℚ) : ℚ := (round (q * 100) : ℚ) / 100

/-- `self.sample_window = 5`, the moving-average window capacity (line 20). -/
def sample_window : ℕ := 5

/-- One `self.readings.append d` on the `deque(maxlen=self.sample_window)`
(lines 21 and 73): the new element goes to the right and, when the deque is
over capacity, oldest (leftmost) entries are discarded. -/
def pushWindow (rs : List ℚ) (x : ℚ) : List ℚ :=
  if sample_window < (rs ++ [x]).length then
    (rs ++ [x]).drop ((rs ++ [x]).length - sample_window)
  else
    rs ++ [x]

/-- Window contents after pushing the samples of `s`, in order, into an
initially empty deque. -/
def windowAfter (s : List ℚ) : List ℚ := List.foldl pushWindow [] s

/-- `sum(l)/len(l)` (line 74). -/
def listMean (l : List ℚ) : ℚ := l.sum / l.length

/-- `round(sum(self.readings)/len(self.readings), 2)` (line 74) after the
samples of `s` were pushed into an initially empty window. -/
def filteredAfter (s : List ℚ) : ℚ := round2 (listMean (windowAfter s))

/-- The last `n` elements of a list. -/
def takeLast (n : ℕ) (l : List ℚ) : List ℚ := l.drop (l.length - n)

/-- Outcome of the trigger/echo busy-wait (lines 36-58): the computed
`pulse_duration` in seconds, and whether one of the two wait loops broke on
the `timeout = time.time() + 0.1` deadline (lines 49-50, 55-56). -/
structure PulseObservation where
  duration : ℚ
  timedOut : Bool
  deriving DecidableEq

/-- Lines 58-66 of `_measure_distance`: convert the pulse to a distance,
validate the range, and either return the rounded distance, the mock
default 25.0 (when `USING_MOCK`), or `None`.  The timeout flag is not
consulted anywhere here, exactly as in the source. -/
def measure_distance (usingMock : Bool) (obs : PulseObservation) : Option ℚ :=
  if ¬ (2 ≤ obs.duration * 17150 ∧ obs.duration * 17150 ≤ 400) then
    if usingMock then some 25 else none
  else
    some (round2 (obs.duration * 17150))

/-- One record of the JSON readings log: `{'timestamp': ..., 'reading': ...}`
(lines 84-87). -/
structure LogEntry where
  timestamp : String
  reading : ℚ
  deriving DecidableEq

/-- The backing log file as the store sees it: missing (`FileNotFoundError`
on open-for-read), present but unparseable (`json.load` raises), or a
parseable JSON list of entries. -/
inductive FileState where
  | absent : FileState
  | corrupt : FileState
  | parsed : List LogEntry → FileState
  deriving DecidableEq

/-- The entries readable from the backing file; none when absent or corrupt. -/
def logEntries : FileState → List LogEntry
  | FileState.parsed l => l
  | _ => []

/-- `_store_reading` (lines 82-104).  `writeRaises` records whether the
open-for-write or dump raises.  The mapping to the source control flow:
a missing file raises `FileNotFoundError`, caught by the inner handler
(line 94), so the log starts empty; a corrupt file makes `json.load` raise
`JSONDecodeError`, which is not a `FileNotFoundError` and therefore reaches
the outer `except Exception` (line 103), so nothing is written; a failing
write likewise reaches the outer handler, leaving the file as it was.
All of these are caught: the function always returns, never raises. -/
def store_reading (writeRaises : Bool) (ts : String) (file : FileState)
    (reading : ℚ) : FileState :=
  match file with
  | FileState.absent =>
      if writeRaises then FileState.absent
      else FileState.parsed [⟨ts, reading⟩]
  | FileState.corrupt => FileState.corrupt
  | FileState.parsed l =>
      if writeRaises then FileState.parsed l
      else FileState.parsed (l ++ [⟨ts, reading⟩])

/-- The mutable state of a `LiquidLevelSensor`: the deque `self.readings`
and the backing log file. -/
structure SensorState where
  readings : List ℚ
  file : FileState
  deriving DecidableEq

/-- The environment of one sampling cycle: what the pulse timer observed,
whether the GPIO/timing calls of `_measure_distance` raised, the timestamp
`datetime.now().isoformat()` produces, and whether the log write raises. -/
structure CycleEnv where
  obs : PulseObservation
  measureRaises : Bool
  timestamp : String
  writeRaises : Bool

/-- The body of the `try` in `get_filtered_reading` (lines 70-77), before
the `except` handler: it either raises (modelled as `Except.error`) or
returns the optional filtered reading together with the new sensor state.
Exceptions inside `_store_reading` are caught there and never surface
here, which is why `store_reading` is total. -/
def get_filtered_reading_body (usingMock : Bool) (env : CycleEnv)
    (st : SensorState) : Except String (Option ℚ × SensorState) :=
  if env.measureRaises then Except.error "Sensor error" else
  match measure_distance usingMock env.obs with
  | some d =>
      let rs := pushWindow st.readings d
      let f := round2 (listMean rs)
      Except.ok (some f, ⟨rs, store_reading env.writeRaises env.timestamp st.file f⟩)
  | none => Except.ok (none, st)

/-- `get_filtered_reading` (lines 68-80): the `try` body with the
`except Exception` handler wrapped around it, which logs and returns
`None`, leaving the state as it was. -/
def get_filtered_reading (usingMock : Bool) (env : CycleEnv)
    (st : SensorState) : Option ℚ × SensorState :=
  match get_filtered_reading_body usingMock env st with
  | Except.ok r => r
  | Except.error _ => (none, st)

/-! ### Helper lemmas -/

lemma roundRat_mono {x y : ℚ} (h : x ≤ y) : round x ≤ round y := by
  rw [round_eq, round_eq]
  exact Int.floor_le_floor (by linarith)

lemma round2_bounds {q : ℚ} (h2 : 2 ≤ q) (h400 : q ≤ 400) :
    2 ≤ round2 q ∧ round2 q ≤ 400 := by
  have hlo : (200 : ℤ) ≤ round (q * 100) := by
    have := roundRat_mono (show (200 : ℚ) ≤ q * 100 by linarith)
    simpa using this
  have hhi : round (q * 100) ≤ (40000 : ℤ) := by
    have := roundRat_mono (show q * 100 ≤ (40000 : ℚ) by linarith)
    simpa using this
  have hlo' : (200 : ℚ) ≤ (round (q * 100) : ℚ) := by exact_mod_cast hlo
  have hhi' : ((round (q * 100) : ℤ) : ℚ) ≤ 40000 := by exact_mod_cast hhi
  constructor
  · rw [round2, le_div_iff₀ (by norm_num : (0:ℚ) < 100)]
    linarith
  · rw [round2, div_le_iff₀ (by norm_num : (0:ℚ) < 100)]
    linarith

lemma listSum_bounds {l : List ℚ} {a b : ℚ}
    (h : ∀ x ∈ l, a ≤ x ∧ x ≤ b) :
    a * l.length ≤ l.sum ∧ l.sum ≤ b * l.length := by
  induction l with
  | nil => simp
  | cons y t ih =>
      have hy := h y (by simp)
      have ht := ih (fun x hx => h x (by simp [hx]))
      simp only [List.sum_cons, List.length_cons]
      push_cast
      constructor
      · nlinarith [ht.1, hy.1]
      · nlinarith [ht.2, hy.2]

lemma listMean_bounds {l : List ℚ} {a b : ℚ} (hne : l ≠ [])
    (h : ∀ x ∈ l, a ≤ x ∧ x ≤ b) :
    a ≤ listMean l ∧ listMean l ≤ b := by
  have hlen : 0 < l.length := List.length_pos.mpr hne
  have hlenq : (0 : ℚ) < (l.length : ℚ) := by exact_mod_cast hlen
  have hs := listSum_bounds h
  constructor
  · rw [listMean, le_div_iff₀ hlenq]
    exact hs.1
  · rw [listMean, div_le_iff₀ hlenq]
    exact hs.2

lemma pushWindow_mem {rs : List ℚ} {x y : ℚ} (hy : y ∈ pushWindow rs x) :
    y ∈ rs ∨ y = x := by
  unfold pushWindow at hy
  split at hy
  · have : y ∈ rs ++ [x] := List.mem_of_mem_drop hy
    simpa using this
  · simpa using hy

lemma pushWindow_ne_nil (rs : List ℚ) (x : ℚ) : pushWindow rs x ≠ [] := by
  unfold pushWindow
  by_cases hcond : sample_window < (rs ++ [x]).length
  · rw [if_pos hcond]
    intro hcon
    have hlen := congrArg List.length hcon
    simp only [List.length_drop, List.length_nil] at hlen
    simp only [sample_window] at hlen hcond
    omega
  · rw [if_neg hcond]
    simp

lemma pushWindow_takeLast (l : List ℚ) (x : ℚ) :
    pushWindow (takeLast 5 l) x = takeLast 5 (l ++ [x]) := by
  unfold pushWindow takeLast sample_window
  rcases Nat.lt_or_ge l.length 5 with hlt | hge
  · have h0 : l.length - 5 = 0 := by omega
    rw [h0, List.drop_zero]
    have hlen : (l ++ [x]).length = l.length + 1 := by simp
    rw [if_neg (by omega)]
    have h1 : (l ++ [x]).length - 5 = 0 := by omega
    rw [h1, List.drop_zero]
  · have hwlen : (l.drop (l.length - 5)).length = 5 := by
      rw [List.length_drop]
      omega
    have hyslen : (l.drop (l.length - 5) ++ [x]).length = 6 := by
      rw [List.length_append, hwlen]
      rfl
    rw [if_pos (by rw [hyslen]; omega), hyslen]
    have h61 : 6 - 5 = 1 := rfl
    rw [h61]
    rw [List.drop_append_of_le_length (by omega), List.drop_drop]
    have hlen2 : (l ++ [x]).length = l.length + 1 := by simp
    rw [hlen2]
    rw [List.drop_append_of_le_length (by omega)]
    congr 2
    omega

lemma windowAfter_takeLast (s : List ℚ) : windowAfter s = takeLast 5 s := by
  induction s using List.reverseRecOn with
  | nil => rfl
  | append_singleton l x ih =>
      unfold windowAfter at ih ⊢
      rw [List.foldl_append, List.foldl_cons, List.foldl_nil, ih,
        pushWindow_takeLast]

lemma measure_distance_in_range (b : Bool) (obs : PulseObservation)
    (h2 : 2 ≤ obs.duration * 17150) (h400 : obs.duration * 17150 ≤ 400) :
    measure_distance b obs = some (round2 (obs.duration * 17150)) := by
  unfold measure_distance
  rw [if_neg (not_not_intro ⟨h2, h400⟩)]

lemma measure_distance_out_of_range_cases (obs : PulseObservation)
    (h : ¬ (2 ≤ obs.duration * 17150 ∧ obs.duration * 17150 ≤ 400)) :
    measure_distance false obs = none ∧ measure_distance true obs = some 25 := by
  unfold measure_distance
  simp [h]

lemma round_eval (x : ℚ) (n : ℤ) (h1 : (n : ℚ) ≤ x + 1/2)
    (h2 : x + 1/2 < n + 1) : round x = n := by
  rw [round_eq]
  exact Int.floor_eq_iff.mpr ⟨h1, h2⟩

lemma round2_of_int (q : ℚ) (n : ℤ) (h : q * 100 = (n : ℚ)) :
    round2 q = (n : ℚ) / 100 := by
  rw [round2, h, round_intCast]

lemma measure_distance_some_bounds {b : Bool} {obs : PulseObservation} {d : ℚ}
    (h : measure_distance b obs = some d) : 2 ≤ d ∧ d ≤ 400 := by
  unfold measure_distance at h
  by_cases hr : 2 ≤ obs.duration * 17150 ∧ obs.duration * 17150 ≤ 400
  · rw [if_neg (not_not_intro hr)] at h
    have hd := Option.some.inj h
    rw [← hd]
    exact round2_bounds hr.1 hr.2
  · rw [if_pos hr] at h
    cases b with
    | false => simp at h
    | true =>
        rw [if_pos rfl] at h
        have hd := Option.some.inj h
        rw [← hd]
        norm_num

/-! ### Claims -/

/-- C1: after pushing k valid raw samples into the moving-average filter,
the filtered value is the arithmetic mean of all k samples rounded to 2
decimal places when k ≤ 5, and the rounded mean of only the last 5 pushed
samples when k ≥ 6 (oldest evicted first, strict FIFO, capacity 5). -/
theorem filter_window_mean (s : List ℚ) (h : s ≠ []) :
    (s.length ≤ 5 → filteredAfter s = round2 (listMean s)) ∧
    (6 ≤ s.length → filteredAfter s = round2 (listMean (takeLast 5 s))) := by
  constructor
  · intro h5
    unfold filteredAfter
    rw [windowAfter_takeLast]
    unfold takeLast
    have h0 : s.length - 5 = 0 := by omega
    rw [h0, List.drop_zero]
  · intro _
    unfold filteredAfter
    rw [windowAfter_takeLast]

/-- Witness for C1 at the spec's scenario: pushing 20, 22, 24 gives the
rounded mean of all three samples, which is 22. -/
theorem filter_window_mean_witness :
    filteredAfter [20, 22, 24] = round2 (listMean [20, 22, 24]) ∧
    filteredAfter [20, 22, 24] = 22 := by
  refine ⟨(filter_window_mean [20, 22, 24] (by decide)).1 (by decide), ?_⟩
  have hwa : windowAfter [20, 22, 24] = [20, 22, 24] := rfl
  rw [filteredAfter, hwa]
  have hm : listMean [20, 22, 24] = 22 := by
    rw [listMean]
    norm_num
  rw [hm, round2_of_int (22 : ℚ) 2200 (by norm_num)]
  norm_num

/-- C2: whenever the converted distance duration * 17150 lies in [2, 400],
measurement returns exactly that distance rounded to 2 decimal places and
the sample is valid (a value is produced); the conversion constant is
exactly 17150 cm per second of round-trip pulse duration. -/
theorem conversion_in_range_valid (b : Bool) (obs : PulseObservation)
    (h2 : 2 ≤ obs.duration * 17150) (h400 : obs.duration * 17150 ≤ 400) :
    measure_distance b obs = some (round2 (obs.duration * 17150)) :=
  measure_distance_in_range b obs h2 h400

/-- Witness for C2 at the spec's scenario duration 0.001454 s: the
conversion yields 0.001454 * 17150 = 24.9361, rounded to 24.94. -/
theorem conversion_in_range_valid_witness :
    measure_distance false ⟨1454/1000000, false⟩
      = some (round2 ((1454/1000000 : ℚ) * 17150)) ∧
    measure_distance false ⟨1454/1000000, false⟩ = some (2494/100) := by
  refine ⟨conversion_in_range_valid false ⟨1454/1000000, false⟩
    (by norm_num) (by norm_num), ?_⟩
  rw [measure_distance_in_range false ⟨1454/1000000, false⟩
    (by norm_num) (by norm_num)]
  have h1 : ((⟨1454/1000000, false⟩ : PulseObservation).duration * 17150) * 100
      = (249361 : ℚ)/100 := by norm_num
  rw [round2, h1, round_eval ((249361 : ℚ)/100) 2494 (by norm_num) (by norm_num)]
  norm_num

/-- C3: when the converted distance falls outside [2, 400], with the
simulate-on-invalid escape hatch disabled (real hardware) the sampler
produces no value, and with the hatch enabled (mock environment) the
result is always the fixed default 25.0, treated as valid. -/
theorem conversion_out_of_range (obs : PulseObservation)
    (h : ¬ (2 ≤ obs.duration * 17150 ∧ obs.duration * 17150 ≤ 400)) :
    measure_distance false obs = none ∧ measure_distance true obs = some 25 :=
  measure_distance_out_of_range_cases obs h

/-- Witness for C3 at duration 1 s: the distance 17150 cm is out of range,
so real hardware yields no sample and the mock environment yields 25.0. -/
theorem conversion_out_of_range_witness :
    measure_distance false ⟨1, false⟩ = none ∧
    measure_distance true ⟨1, false⟩ = some 25 :=
  conversion_out_of_range ⟨1, false⟩ (by norm_num)

/-- C4 counterexample: a cycle whose pulse observation timed out
(timedOut = true) but whose partial duration 0.002 s converts to 34.3 cm,
inside [2, 400]: even on real hardware the sampler returns 34.3 rather
than absent, appends it to the filter window and writes it to the log,
because the code never consults the timeout condition after the wait
loops break. -/
theorem timeout_cycle_cex :
    (⟨⟨1/500, true⟩, false, "t", false⟩ : CycleEnv).obs.timedOut = true ∧
    get_filtered_reading false ⟨⟨1/500, true⟩, false, "t", false⟩
        ⟨[], FileState.parsed []⟩
      = (some (343/10),
         ⟨[343/10], FileState.parsed [⟨"t", 343/10⟩]⟩) := by
  refine ⟨rfl, ?_⟩
  have hr : round2 ((343 : ℚ)/10) = 343/10 := by
    rw [round2_of_int ((343 : ℚ)/10) 3430 (by norm_num)]
    norm_num
  have hmd : measure_distance false ⟨1/500, true⟩ = some (343/10) := by
    rw [measure_distance_in_range false ⟨1/500, true⟩ (by norm_num) (by norm_num)]
    have : ((⟨1/500, true⟩ : PulseObservation).duration * 17150) = (343 : ℚ)/10 := by
      norm_num
    rw [this, hr]
  have hpush : pushWindow [] ((343 : ℚ)/10) = [343/10] := rfl
  have hmean : listMean [(343 : ℚ)/10] = 343/10 := by
    rw [listMean]
    norm_num
  unfold get_filtered_reading get_filtered_reading_body
  simp only [hmd, hpush, hmean, hr]
  rfl

/-- C4 (amended): for every cycle whose pulse observation timed out, if the
observed partial duration converts to a distance outside [2, 400] and the
simulate escape hatch is disabled, the sampler returns absent, the filter
window is not mutated and the reading log is unchanged. -/
theorem timeout_out_of_range_absent (env : CycleEnv) (st : SensorState)
    (ht : env.obs.timedOut = true)
    (h : ¬ (2 ≤ env.obs.duration * 17150 ∧ env.obs.duration * 17150 ≤ 400)) :
    get_filtered_reading false env st = (none, st) := by
  have hmd := (measure_distance_out_of_range_cases env.obs h).1
  unfold get_filtered_reading get_filtered_reading_body
  cases henv : env.measureRaises with
  | true => simp
  | false => simp [hmd]

/-- Witness for C4 (amended): a timed-out cycle with negative partial
duration (echo line never rose) yields absent and leaves the state
untouched. -/
theorem timeout_out_of_range_absent_witness :
    get_filtered_reading false ⟨⟨-1/10, true⟩, false, "t", false⟩
        ⟨[], FileState.absent⟩
      = (none, ⟨[], FileState.absent⟩) :=
  timeout_out_of_range_absent ⟨⟨-1/10, true⟩, false, "t", false⟩
    ⟨[], FileState.absent⟩ rfl (by norm_num)

/-- C5 counterexample: a cycle in which the log write raises (a persistence
exception) still returns the filtered reading 34.3 rather than an absent
result: the exception is caught inside the store, not converted into None,
so the claim that every caught exception yields an absent result fails. -/
theorem exception_absent_cex :
    (⟨⟨1/500, false⟩, false, "t", true⟩ : CycleEnv).writeRaises = true ∧
    (get_filtered_reading false ⟨⟨1/500, false⟩, false, "t", true⟩
        ⟨[], FileState.parsed []⟩).1 = some (343/10) := by
  refine ⟨rfl, ?_⟩
  have hr : round2 ((343 : ℚ)/10) = 343/10 := by
    rw [round2_of_int ((343 : ℚ)/10) 3430 (by norm_num)]
    norm_num
  have hmd : measure_distance false ⟨1/500, false⟩ = some (343/10) := by
    rw [measure_distance_in_range false ⟨1/500, false⟩ (by norm_num) (by norm_num)]
    have harg : ((⟨1/500, false⟩ : PulseObservation).duration * 17150)
        = (343 : ℚ)/10 := by norm_num
    rw [harg, hr]
  have hpush : pushWindow [] ((343 : ℚ)/10) = [343/10] := rfl
  have hmean : listMean [(343 : ℚ)/10] = 343/10 := by
    rw [listMean]
    norm_num
  unfold get_filtered_reading get_filtered_reading_body
  simp only [hmd, hpush, hmean, hr]
  rfl

/-- C5 (amended): any exception raised during measurement or filtering is
caught by the handler of get_filtered_reading and converted into an absent
result with the sensor state unchanged; exceptions during persistence are
caught inside the store and never reach this handler; the sampler never
propagates an exception to its caller. -/
theorem exception_converted_to_absent (u : Bool) (env : CycleEnv)
    (st : SensorState) (e : String)
    (h : get_filtered_reading_body u env st = Except.error e) :
    get_filtered_reading u env st = (none, st) := by
  unfold get_filtered_reading
  rw [h]

/-- Witness for C5 (amended): a cycle whose GPIO measurement raises is
converted into an absent result with the state unchanged. -/
theorem exception_converted_to_absent_witness :
    get_filtered_reading false ⟨⟨1/500, false⟩, true, "t", false⟩
        ⟨[], FileState.absent⟩
      = (none, ⟨[], FileState.absent⟩) :=
  exception_converted_to_absent false
    (⟨⟨1/500, false⟩, true, "t", false⟩ : CycleEnv)
    (⟨[], FileState.absent⟩ : SensorState) "Sensor error" rfl

/-- C6: appending a reading to an existing log of length L yields a log of
length L+1 whose first L entries are the prior entries unchanged and in
their original order, followed by the new reading; and no store operation
ever deletes an entry: the old readable entries are always an initial
segment of the new ones. -/
theorem store_append_preserves (l : List LogEntry) (ts : String) (r : ℚ) :
    store_reading false ts (FileState.parsed l) r
        = FileState.parsed (l ++ [⟨ts, r⟩]) ∧
    (l ++ [LogEntry.mk ts r]).length = l.length + 1 ∧
    (l ++ [LogEntry.mk ts r]).take l.length = l ∧
    (∀ (w : Bool) (f : FileState), ∃ t,
      logEntries (store_reading w ts f r) = logEntries f ++ t) := by
  refine ⟨rfl, by simp, by simp, ?_⟩
  intro w f
  cases f with
  | absent =>
      cases w with
      | false => exact ⟨[⟨ts, r⟩], rfl⟩
      | true => exact ⟨[], rfl⟩
  | corrupt => exact ⟨[], rfl⟩
  | parsed l2 =>
      cases w with
      | false => exact ⟨[⟨ts, r⟩], rfl⟩
      | true => exact ⟨[], by simp [store_reading, logEntries]⟩

/-- C7: appending when the backing log file does not exist treats the
missing file as an empty log (not an error) and produces a log of length 1
containing only the new reading. -/
theorem store_missing_file_creates (ts : String) (r : ℚ) :
    store_reading false ts FileState.absent r = FileState.parsed [⟨ts, r⟩] ∧
    (logEntries (store_reading false ts FileState.absent r)).length = 1 :=
  ⟨rfl, rfl⟩

/-- C8 counterexample: appending to a corrupt (unparseable) log file writes
nothing: the parse failure reaches the store's generic handler, the file
stays corrupt and the new reading is not persisted, contradicting the
claim that the log is re-initialized empty and the reading appended. -/
theorem store_corrupt_cex :
    store_reading false "t" FileState.corrupt 25 = FileState.corrupt ∧
    logEntries (store_reading false "t" FileState.corrupt 25) = [] :=
  ⟨rfl, rfl⟩

/-- C8 (amended): appending when the backing log file exists but is corrupt
is abandoned: the load failure is caught by the store's generic exception
handler, the log file is left unchanged and the new reading is not written;
only a missing file is treated as an empty log. -/
theorem store_corrupt_unchanged (w : Bool) (ts : String) (r : ℚ) :
    store_reading w ts FileState.corrupt r = FileState.corrupt := rfl

/-- C9: whenever measurement succeeds with a raw distance d, the sampling
cycle returns the filtered reading computed in memory regardless of the
state of the backing file and of whether the log write raises: a failure
during log load or log write is caught and never blocks returning the
reading. -/
theorem reading_returned_despite_persistence_failure (u : Bool)
    (env : CycleEnv) (st : SensorState) (d : ℚ)
    (hm : env.measureRaises = false)
    (hd : measure_distance u env.obs = some d) :
    (get_filtered_reading u env st).1
      = some (round2 (listMean (pushWindow st.readings d))) := by
  unfold get_filtered_reading get_filtered_reading_body
  rw [hm, hd]
  rfl

/-- Witness for C9: a cycle over a corrupt backing file whose write also
raises still returns the in-memory filtered reading 34.3. -/
theorem reading_returned_despite_persistence_failure_witness :
    (get_filtered_reading false ⟨⟨1/500, false⟩, false, "t", true⟩
        ⟨[], FileState.corrupt⟩).1
      = some (round2 (listMean (pushWindow [] (343/10)))) := by
  refine reading_returned_despite_persistence_failure false
    ⟨⟨1/500, false⟩, false, "t", true⟩ ⟨[], FileState.corrupt⟩ (343/10) rfl ?_
  rw [measure_distance_in_range false ⟨1/500, false⟩ (by norm_num) (by norm_num)]
  have harg : ((⟨1/500, false⟩ : PulseObservation).duration * 17150)
      = (343 : ℚ)/10 := by norm_num
  rw [harg, round2_of_int ((343 : ℚ)/10) 3430 (by norm_num)]
  norm_num

/-- Every raw sample retained in the filter window is a distance in
[2, 400]. -/
def windowInRange (rs : List ℚ) : Prop := ∀ x ∈ rs, 2 ≤ x ∧ x ≤ 400

/-- C10: if every sample already in the window lies in [2, 400] — as every
element ever inserted is either an in-range measured distance or the
simulated default 25.0 — then after any sampling cycle the window still
only holds values in [2, 400], and whenever the cycle returns a non-absent
value that value lies in [2, 400]. -/
theorem sample_result_in_range (u : Bool) (env : CycleEnv) (st : SensorState)
    (hw : windowInRange st.readings) :
    windowInRange (get_filtered_reading u env st).2.readings ∧
    (∀ q, (get_filtered_reading u env st).1 = some q → 2 ≤ q ∧ q ≤ 400) := by
  cases henv : env.measureRaises with
  | true =>
      have hred : get_filtered_reading u env st = (none, st) := by
        unfold get_filtered_reading get_filtered_reading_body
        rw [henv]
        rfl
      rw [hred]
      exact ⟨hw, by simp⟩
  | false =>
      cases hmd : measure_distance u env.obs with
      | none =>
          have hred : get_filtered_reading u env st = (none, st) := by
            unfold get_filtered_reading get_filtered_reading_body
            rw [henv, hmd]
            rfl
          rw [hred]
          exact ⟨hw, by simp⟩
      | some d =>
          have hdb := measure_distance_some_bounds hmd
          have hpush : windowInRange (pushWindow st.readings d) := by
            intro y hy
            rcases pushWindow_mem hy with h1 | h1
            · exact hw y h1
            · rw [h1]
              exact hdb
          have hne := pushWindow_ne_nil st.readings d
          have hmean := listMean_bounds hne hpush
          have hr2 := round2_bounds hmean.1 hmean.2
          have hred : get_filtered_reading u env st
              = (some (round2 (listMean (pushWindow st.readings d))),
                 ⟨pushWindow st.readings d,
                  store_reading env.writeRaises env.timestamp st.file
                    (round2 (listMean (pushWindow st.readings d)))⟩) := by
            unfold get_filtered_reading get_filtered_reading_body
            rw [henv, hmd]
            rfl
          rw [hred]
          refine ⟨hpush, ?_⟩
          intro q hq
          have hqe := Option.some.inj hq
          rw [← hqe]
          exact hr2

/-- Witness for C10: starting from an empty window, a mock cycle whose
pulse converts out of range inserts the default 25.0 and returns it, a
value inside [2, 400]. -/
theorem sample_result_in_range_witness :
    windowInRange (get_filtered_reading true ⟨⟨0, false⟩, false, "t", false⟩
        ⟨[], FileState.absent⟩).2.readings ∧
    (∀ q, (get_filtered_reading true ⟨⟨0, false⟩, false, "t", false⟩
        ⟨[], FileState.absent⟩).1 = some q → 2 ≤ q ∧ q ≤ 400) :=
  sample_result_in_range true ⟨⟨0, false⟩, false, "t", false⟩
    ⟨[], FileState.absent⟩ (by simp [windowInRange])
